import Mathlib

/-!
Verification of the SKAL integration-test harness (integration-tests.py).

The harness is a sequential Python script.  Its observable behaviour is
embedded shallowly below: path manipulation becomes pure string functions,
the subprocess registry and log-sink map become association lists threaded
through the functions that mutate them, OS-level side effects (opening and
closing files, signalling processes, arming timers) become entries in
explicit event traces, and Python exceptions become `Except` results.
`os.sep` is the single character `/` (the script is POSIX-only: it installs
SIGTERM/SIGINT handlers).
-/

namespace Skal

/-! ### Path helpers (os.sep, os.path.join, os.path.basename) -/

/-- Python `c in s` for a one-character separator: membership of the
character in the string. -/
def strContainsChar (s : String) (c : Char) : Bool :=
  s.data.contains c

/-- Python substring test `needle in hay`, on character lists. -/
def containsSub (needle : List Char) : List Char → Bool
  | [] => needle.isEmpty
  | c :: rest => needle.isPrefixOf (c :: rest) || containsSub needle rest

/-- POSIX `os.path.join a b` for the two-argument case: if `b` is absolute
it wins; otherwise the parts are joined with a single `/` unless `a` is
empty or already ends in `/`. -/
def osPathJoin (a b : String) : String :=
  if b.data.head? = some '/' then b
  else if a.data = [] then b
  else if a.data.getLast? = some '/' then String.mk (a.data ++ b.data)
  else String.mk (a.data ++ '/' :: b.data)

/-- POSIX `os.path.basename`: the suffix after the last `/` (empty when the
path ends in `/`). -/
def osPathBasename (p : String) : String :=
  String.mk (p.data.foldl (fun acc c => if c = '/' then [] else acc ++ [c]) [])

/-! ### Log capture and `spawn` (integration-tests.py lines 60-70)

`outputFiles` maps an executable basename to its open log sink and
`outputPaths` to the log path; both are filled lazily on first spawn of a
basename.  File-system side effects are recorded as `FileEvent`s: the
`open(path, "w")` call (which truncates), the `close()` at end of run, and
the read-only reopen performed by the leak scan. -/

inductive FileEvent where
  | openWrite (path : String)
  | close (path : String)
  | openRead (path : String)
deriving DecidableEq, Repr

/-- Python `dict.get`: first entry with the given key, scanning in
insertion order. -/
def findSink (m : List (String × String)) (k : String) : Option String :=
  match m with
  | [] => none
  | kv :: rest => if kv.1 = k then some kv.2 else findSink rest k

/-- The module-level `outputFiles` and `outputPaths` dictionaries plus the
trace of file-system events performed so far. -/
structure SpawnState where
  outputFiles : List (String × String)
  outputPaths : List (String × String)
  fileEvents : List FileEvent
deriving DecidableEq, Repr

def initSpawnState : SpawnState :=
  { outputFiles := [], outputPaths := [], fileEvents := [] }

/-- What one call to `spawn` produces, as observed by the caller:
the argv actually handed to `subprocess.Popen`, the contents of the
caller's own (mutable, mutated in place) argument list after the call,
and the redirection targets (`stdout=outputFiles[procname]`,
`stderr=subprocess.STDOUT`, i.e. stderr merged into stdout). -/
structure SpawnResult where
  launchedArgv : List String
  callerArgv : List String
  stdoutSink : String
  stderrToStdout : Bool
deriving DecidableEq, Repr

/-- `spawn(arguments)` (lines 62-70).  The Python function indexes
`arguments[0]`, so the embedding takes the head of the argv explicitly.
When `arguments[0]` has no path separator it is overwritten in place with
`os.path.join(".", arguments[0])`; the basename of the (possibly
rewritten) head selects the log sink, creating it in write/truncate mode
on first use. -/
def spawn (arg0 : String) (argRest : List String) (st : SpawnState) :
    SpawnResult × SpawnState :=
  let a0 := if strContainsChar arg0 '/' then arg0 else osPathJoin "." arg0
  let procname := osPathBasename a0
  let res : SpawnResult :=
    { launchedArgv := a0 :: argRest
      callerArgv := a0 :: argRest
      stdoutSink := procname
      stderrToStdout := true }
  match findSink st.outputFiles procname with
  | some _ => (res, st)
  | none =>
      let path := procname ++ ".log"
      (res,
        { outputFiles := st.outputFiles ++ [(procname, path)]
          outputPaths := st.outputPaths ++ [(procname, path)]
          fileEvents := st.fileEvents ++ [FileEvent.openWrite path] })

/-- One call to `spawn`, as data: the head of the argv and the rest. -/
structure SpawnCall where
  arg0 : String
  argRest : List String
deriving DecidableEq, Repr

/-- Run a sequence of `spawn` calls against the shared sink state. -/
def runSpawns : List SpawnCall → SpawnState → SpawnState
  | [], st => st
  | c :: cs, st => runSpawns cs (spawn c.arg0 c.argRest st).2

/-- The basename that a `spawn` call resolves its executable to. -/
def resolvedBasename (c : SpawnCall) : String :=
  osPathBasename (if strContainsChar c.arg0 '/' then c.arg0
                  else osPathJoin "." c.arg0)

/-- End of run, lines 146-147: `for p, f in outputFiles.items(): f.close()`. -/
def closeAllEvents (st : SpawnState) : List FileEvent :=
  st.outputFiles.map (fun kv => FileEvent.close kv.2)

/-- End of run, lines 148-156: the leak scan reopens each `outputPaths`
entry for reading. -/
def scanOpenEvents (st : SpawnState) : List FileEvent :=
  st.outputPaths.map (fun kv => FileEvent.openRead kv.2)

/-- The file-system trace of a whole run: the lazily created sinks during
the spawns, then all closes, then the read-only reopens of the leak scan. -/
def fullRunTrace (calls : List SpawnCall) : List FileEvent :=
  let st := runSpawns calls initSpawnState
  st.fileEvents ++ closeAllEvents st ++ scanOpenEvents st

/-! ### Process registry termination (`terminateAll`, lines 32-42)

A registered subprocess is modelled by the behaviour `terminateAll` can
observe: whether `process.terminate()` raises an `OSError`, whether
`process.poll()` still returns `None` after the 0.2 s grace sleep, and
whether `process.kill()` raises.  The registry `proc` is an association
list from role name to behaviour, in insertion order (Python dicts
preserve insertion order). -/

structure ProcBehavior where
  terminateFails : Bool
  aliveAfterGrace : Bool
  killFails : Bool
deriving DecidableEq, Repr

/-- OS-level actions performed by `terminateAll`, in order. -/
inductive TermAction where
  | terminate (name : String)
  | sleep (ms : Nat)
  | kill (name : String)
  | clearRegistry
deriving DecidableEq, Repr

/-- First loop of `terminateAll`: `process.terminate()` for every entry. -/
def terminatePass : List (String × ProcBehavior) → List TermAction
  | [] => []
  | np :: rest => TermAction.terminate np.1 :: terminatePass rest

/-- Second loop of `terminateAll`: `process.kill()` for exactly the
entries whose `poll()` is still `None` after the grace sleep. -/
def killPass : List (String × ProcBehavior) → List TermAction
  | [] => []
  | np :: rest =>
      if np.2.aliveAfterGrace then TermAction.kill np.1 :: killPass rest
      else killPass rest

/-- The action trace of one `terminateAll()` call on which no OS call
fails: terminate everything, `time.sleep(0.2)` (200 ms), kill the
survivors, `proc.clear()`. -/
def terminateAllTrace (reg : List (String × ProcBehavior)) : List TermAction :=
  terminatePass reg ++ TermAction.sleep 200 :: killPass reg
    ++ [TermAction.clearRegistry]

/-- The registry after a `terminateAll()` call that completes:
`proc.clear()` empties it unconditionally. -/
def terminateAllFinal (_reg : List (String × ProcBehavior)) :
    List (String × ProcBehavior) := []

/-- Exception semantics of the first loop: `process.terminate()` raises
for an entry whose `terminateFails` is set, and the exception aborts the
whole function (there is no `try` in `terminateAll`). -/
def terminatePassE : List (String × ProcBehavior) → Except String Unit
  | [] => Except.ok ()
  | np :: rest =>
      if np.2.terminateFails then Except.error ("terminate failed: " ++ np.1)
      else terminatePassE rest

/-- Exception semantics of the second loop: `process.kill()` raises for a
still-alive entry whose `killFails` is set. -/
def killPassE : List (String × ProcBehavior) → Except String Unit
  | [] => Except.ok ()
  | np :: rest =>
      if np.2.aliveAfterGrace then
        if np.2.killFails then Except.error ("kill failed: " ++ np.1)
        else killPassE rest
      else killPassE rest

/-- `terminateAll()` with exceptions: the terminate loop, then the kill
loop, then `proc.clear()`; an exception raised anywhere propagates to the
caller and the lines after it never run. -/
def terminateAllE (reg : List (String × ProcBehavior)) :
    Except String (List (String × ProcBehavior)) :=
  match terminatePassE reg with
  | Except.error e => Except.error e
  | Except.ok _ =>
      match killPassE reg with
      | Except.error e => Except.error e
      | Except.ok _ => Except.ok []

/-- The registry `proc` as the caller sees it after `terminateAll()`
returns or raises: cleared on normal return, untouched when an exception
escaped before `proc.clear()`. -/
def registryAfterTerminateAll (reg : List (String × ProcBehavior)) :
    List (String × ProcBehavior) :=
  match terminateAllE reg with
  | Except.ok r => r
  | Except.error _ => reg

/-! ### Watchdog, signal bridge and test runner (lines 45-84) -/

/-- Run-level events of the harness, in program order. -/
inductive RunEvent where
  | clearRegistry
  | armWatchdog (ms : Nat)
  | runBody
  | cancelWatchdog
  | terminateAllCall
  | recordResult (description : String) (success : Bool)
  | printLine (line : String)
  | exitRun (code : Nat)
deriving DecidableEq, Repr

/-- `sigtermHandler` (lines 45-48), installed for both SIGTERM and
SIGINT: call `terminateAll()`, then `sys.exit(1)`. -/
def sigtermHandlerEvents : List RunEvent :=
  [RunEvent.terminateAllCall, RunEvent.exitRun 1]

/-- `timeout` (lines 55-57), the watchdog callback: print `Timeout!`,
then `os.kill(os.getpid(), signal.SIGTERM)`, which delivers SIGTERM to
the harness itself and hence runs the installed `sigtermHandler`. -/
def timeoutFire : List RunEvent :=
  RunEvent.printLine "Timeout!" :: sigtermHandlerEvents

/-- How the body phase of one scenario ends: it returns a boolean, or the
watchdog fires / an external SIGTERM or SIGINT arrives while it runs
(`fromWatchdog` tells the two apart). -/
inductive BodyOutcome where
  | completed (success : Bool)
  | interrupted (fromWatchdog : Bool)
deriving DecidableEq, Repr

/-- Outcome of one `runTest` call: the `results` list, the run-level
event trace, and `some code` when the run was ended by `sys.exit`. -/
structure RunTestResult where
  results : List (String × Bool)
  events : List RunEvent
  exitCode : Option Nat
deriving DecidableEq, Repr

/-- `runTest(description, timeout_s, body)` (lines 76-84):
`proc.clear()`; `timer.start()`; `body()`; `timer.cancel()`;
`terminateAll()`; `results.append((description, success))`.
If the handler fires during `body()`, `sys.exit(1)` raised inside it
propagates through the body, so the cancel, terminate-all and append
lines never run for that scenario. -/
def runTest (description : String) (timeoutMs : Nat) (outcome : BodyOutcome)
    (results : List (String × Bool)) (events : List RunEvent) : RunTestResult :=
  let events := events ++ [RunEvent.clearRegistry]
  let events := events ++ [RunEvent.armWatchdog timeoutMs]
  let events := events ++ [RunEvent.runBody]
  match outcome with
  | BodyOutcome.completed success =>
      let events := events ++ [RunEvent.cancelWatchdog]
      let events := events ++ [RunEvent.terminateAllCall]
      let events := events ++ [RunEvent.recordResult description success]
      { results := results ++ [(description, success)]
        events := events
        exitCode := none }
  | BodyOutcome.interrupted fromWatchdog =>
      let events :=
        events ++ (if fromWatchdog then timeoutFire else sigtermHandlerEvents)
      { results := results, events := events, exitCode := some 1 }

/-- A run of consecutive scenarios that all complete normally, given per
scenario its description, timeout and the boolean its body returns. -/
def runScenarios : List (String × Nat × Bool) → List (String × Bool) →
    List RunEvent → List (String × Bool) × List RunEvent
  | [], results, events => (results, events)
  | s :: rest, results, events =>
      let r := runTest s.1 s.2.1 (BodyOutcome.completed s.2.2) results events
      runScenarios rest r.results r.events

/-! ### Scenario bodies (lines 88-141)

Each body spawns skald, a reader and a writer, blocks in
`proc["reader"].wait()`, deletes the reader entry and returns `True`.
The embedding makes the reader's exit status an input so that its
(non-)influence on the returned boolean is visible: the Python code
discards the value `wait()` returns. -/

/-- `startSkaldReaderWriter` (lines 88-97): registers the three roles. -/
def startSkaldReaderWriter (socketUrl : String)
    (argsSkald argsReader argsWriter : List String) :
    List (String × List String) :=
  [("skald", ["skald", "-u", socketUrl] ++ argsSkald),
   ("reader", ["reader", "-u", socketUrl] ++ argsReader),
   ("writer", ["writer", "-u", socketUrl] ++ argsWriter)]

/-- Python `del d[k]` on an association list with unique keys. -/
def delKey (k : String) : List (String × List String) →
    List (String × List String)
  | [] => []
  | kv :: rest => if kv.1 = k then rest else kv :: delKey k rest

/-- What a scenario body leaves behind: the registry after its own
`del`, the exit status `wait()` returned, and the boolean it returns. -/
structure BodyResult where
  registryAfterBody : List (String × List String)
  waitedExitStatus : Int
  success : Bool
deriving DecidableEq, Repr

/-- `testSendOneMsg` (lines 100-106): waits on the reader, then
`return True` — the exit status from `wait()` is discarded. -/
def testSendOneMsg (readerExitStatus : Int) : BodyResult :=
  let reg := startSkaldReaderWriter "unix://skald.sock"
      ["-d", "TestDomain"] [] ["-c", "1", "reader"]
  { registryAfterBody := delKey "reader" reg
    waitedExitStatus := readerExitStatus
    success := true }

/-- `testSendFiveMsg` (lines 111-117). -/
def testSendFiveMsg (readerExitStatus : Int) : BodyResult :=
  let reg := startSkaldReaderWriter "unix://skald.sock"
      ["-d", "TestDomain"] [] ["-c", "5", "reader"]
  { registryAfterBody := delKey "reader" reg
    waitedExitStatus := readerExitStatus
    success := true }

/-- `testSendOneMsgToGroup` (lines 122-128). -/
def testSendOneMsgToGroup (readerExitStatus : Int) : BodyResult :=
  let reg := startSkaldReaderWriter "unix://skald.sock"
      ["-d", "TestDomain"] ["-m", "TestGr"] ["-c", "1", "-m", "TestGr"]
  { registryAfterBody := delKey "reader" reg
    waitedExitStatus := readerExitStatus
    success := true }

/-- `testSendFiveMsgToGroup` (lines 133-139). -/
def testSendFiveMsgToGroup (readerExitStatus : Int) : BodyResult :=
  let reg := startSkaldReaderWriter "unix://skald.sock"
      ["-d", "TestDomain"] ["-m", "TestGr"] ["-c", "5", "-m", "TestGr"]
  { registryAfterBody := delKey "reader" reg
    waitedExitStatus := readerExitStatus
    success := true }

/-- The `results` list of a full run of the four scenarios (lines
108-141), parameterised by the reader exit status seen in each. -/
def fullRunResults (s1 s2 s3 s4 : Int) : List (String × Bool) :=
  let r1 := runTest "Send one message through SKALD" 500
      (BodyOutcome.completed (testSendOneMsg s1).success) [] []
  let r2 := runTest "Send five messages through SKALD" 500
      (BodyOutcome.completed (testSendFiveMsg s2).success) r1.results r1.events
  let r3 := runTest "Send one message to a multicast group" 500
      (BodyOutcome.completed (testSendOneMsgToGroup s3).success) r2.results r2.events
  let r4 := runTest "Send five messages to a multicast group" 500
      (BodyOutcome.completed (testSendFiveMsgToGroup s4).success) r3.results r3.events
  r4.results

/-! ### Result aggregation (lines 144-173) -/

/-- Line 151: `"Memory leak detected" in line`. -/
def lineHasLeak (line : String) : Bool :=
  containsSub "Memory leak detected".data line.data

/-- Lines 149-155: scanning one log file sets the flag as soon as some
line contains the marker (the `break` makes it a boolean `any`). -/
def fileHasLeak (lines : List String) : Bool :=
  lines.any lineHasLeak

/-- Lines 145-156: `memoryLeak` is set when any log file has a marker
line.  A log is a path paired with its list of lines. -/
def memoryLeak (logs : List (String × List String)) : Bool :=
  logs.any (fun pl => fileHasLeak pl.2)

/-- Lines 159-162: count of recorded results whose success is `False`. -/
def failCount (results : List (String × Bool)) : Nat :=
  results.foldl (fun acc r => if r.2 then acc else acc + 1) 0

/-- The one-line summary printed at the end, one constructor per
distinct message (lines 164, 169, 172). -/
inductive Verdict where
  | failSummary (failed total : Nat)
  | passButLeakSummary (total : Nat)
  | passSummary (total : Nat)
deriving DecidableEq, Repr

/-- Lines 163-173: the summary and the process exit code.  `sys.exit(1)`
in the two failure branches; falling off the end of the script exits 0. -/
def finalVerdict (results : List (String × Bool))
    (logs : List (String × List String)) : Verdict × Nat :=
  if failCount results > 0 then
    (Verdict.failSummary (failCount results) results.length, 1)
  else if memoryLeak logs then
    (Verdict.passButLeakSummary results.length, 1)
  else
    (Verdict.passSummary results.length, 0)

/-- Invariant of the log-sink state maintained by every `spawn`: the
file events so far are exactly one truncating open per sink in creation
order, sink keys are distinct, `outputPaths` mirrors `outputFiles`, and
each sink's path is its basename followed by `.log`. -/
def goodState (st : SpawnState) : Prop :=
  st.fileEvents = st.outputFiles.map (fun kv => FileEvent.openWrite kv.2)
  ∧ (st.outputFiles.map Prod.fst).Nodup
  ∧ st.outputPaths = st.outputFiles
  ∧ ∀ kv ∈ st.outputFiles, kv.2 = kv.1 ++ ".log"

/-! ### Theorems -/

theorem terminatePass_eq_map (reg : List (String × ProcBehavior)) :
    terminatePass reg = reg.map (fun np => TermAction.terminate np.1) := by
  induction reg with
  | nil => rfl
  | cons np rest ih => simp [terminatePass, ih]

theorem killPass_eq_filter_map (reg : List (String × ProcBehavior)) :
    killPass reg
      = (reg.filter (fun np => np.2.aliveAfterGrace)).map
          (fun np => TermAction.kill np.1) := by
  induction reg with
  | nil => rfl
  | cons np rest ih =>
      by_cases h : np.2.aliveAfterGrace <;>
        simp [killPass, List.filter_cons, h, ih]

theorem terminatePassE_ok_iff (reg : List (String × ProcBehavior)) :
    terminatePassE reg = Except.ok ()
      ↔ ∀ np ∈ reg, np.2.terminateFails = false := by
  induction reg with
  | nil => simp [terminatePassE]
  | cons np rest ih =>
      by_cases h : np.2.terminateFails <;>
        simp [terminatePassE, h, ih]

theorem killPassE_ok_iff (reg : List (String × ProcBehavior)) :
    killPassE reg = Except.ok ()
      ↔ ∀ np ∈ reg, np.2.aliveAfterGrace = true → np.2.killFails = false := by
  induction reg with
  | nil => simp [killPassE]
  | cons np rest ih =>
      by_cases ha : np.2.aliveAfterGrace
      · by_cases hk : np.2.killFails <;> simp [killPassE, ha, hk, ih]
      · simp [killPassE, ha, ih]

/-- C1: the final verdict is PASS with exit code 0 exactly when no
recorded scenario failed and no log contains the leak marker; any other
outcome is FAIL with exit code 1, and the summary line for the
all-passed-but-leaked case is distinct from the one for the
some-scenarios-failed case. -/
theorem C1_final_verdict (results : List (String × Bool))
    (logs : List (String × List String)) :
    ((finalVerdict results logs).2 = 0
        ↔ failCount results = 0 ∧ memoryLeak logs = false)
    ∧ ((finalVerdict results logs).2 = 0 ∨ (finalVerdict results logs).2 = 1)
    ∧ (failCount results > 0 →
        finalVerdict results logs
          = (Verdict.failSummary (failCount results) results.length, 1))
    ∧ (failCount results = 0 → memoryLeak logs = true →
        finalVerdict results logs
          = (Verdict.passButLeakSummary results.length, 1))
    ∧ (∀ f t u, Verdict.failSummary f t ≠ Verdict.passButLeakSummary u) := by
  have hsplit : failCount results = 0 ∨ failCount results > 0 := by omega
  unfold finalVerdict
  rcases hsplit with h | h
  · cases hm : memoryLeak logs <;> simp [h, hm]
  · have h0 : ¬ failCount results = 0 := by omega
    simp [h, h0]

/-- C2 counterexample: with the reader exiting with status 1 (a non-zero
exit status), `testSendOneMsg` still returns `True` and the recorded
result for the scenario is a success, so a non-zero exit status of the
waited process does not yield a recorded scenario failure. -/
theorem C2_counterexample :
    (testSendOneMsg 1).success = true
    ∧ (runTest "Send one message through SKALD" 500
        (BodyOutcome.completed (testSendOneMsg 1).success) [] []).results
      = [("Send one message through SKALD", true)] :=
  ⟨rfl, rfl⟩

/-- C2 amended: for the send-one-message and send-to-group scenarios the
recorded success boolean is `True` whenever the body runs to completion,
regardless of the exit status of the reader process the body waits on —
the body discards the status `wait()` returns. -/
theorem C2_success_ignores_exit_status (status : Int) (d1 d3 : String)
    (results : List (String × Bool)) (events : List RunEvent) :
    (testSendOneMsg status).success = true
    ∧ (testSendOneMsgToGroup status).success = true
    ∧ (runTest d1 500 (BodyOutcome.completed (testSendOneMsg status).success)
        results events).results = results ++ [(d1, true)]
    ∧ (runTest d3 500
        (BodyOutcome.completed (testSendOneMsgToGroup status).success)
        results events).results = results ++ [(d3, true)] :=
  ⟨rfl, rfl, rfl, rfl⟩

/-- C3 counterexample: a registry holding one process whose graceful
termination request fails makes `terminateAll` raise, and afterwards the
registry is not cleared — the failure is propagated to the caller, not
recovered locally. -/
theorem C3_counterexample :
    terminateAllE [("skald", ⟨true, false, false⟩)]
      = Except.error "terminate failed: skald"
    ∧ registryAfterTerminateAll [("skald", ⟨true, false, false⟩)]
      = [("skald", ⟨true, false, false⟩)]
    ∧ registryAfterTerminateAll [("skald", ⟨true, false, false⟩)] ≠ [] :=
  ⟨rfl, rfl, by decide⟩

/-- C3 amended: `terminateAll` performs no local failure recovery: it
returns normally (with a cleared registry) exactly when every graceful
termination succeeds and every forced kill of a still-alive process
succeeds; any individual failure propagates to the caller as an
exception, and in that case the registry is left uncleared. -/
theorem C3_failure_propagates (reg : List (String × ProcBehavior)) :
    (terminateAllE reg = Except.ok []
        ↔ (∀ np ∈ reg, np.2.terminateFails = false)
          ∧ (∀ np ∈ reg, np.2.aliveAfterGrace = true → np.2.killFails = false))
    ∧ (∀ e, terminateAllE reg = Except.error e →
        registryAfterTerminateAll reg = reg) := by
  constructor
  · constructor
    · intro h
      cases ht : terminatePassE reg with
      | error e => rw [terminateAllE, ht] at h; exact absurd h (by simp)
      | ok u =>
          cases hk : killPassE reg with
          | error e =>
              rw [terminateAllE, ht, hk] at h
              exact absurd h (by simp)
          | ok v =>
              exact ⟨(terminatePassE_ok_iff reg).mp (by rw [ht]),
                (killPassE_ok_iff reg).mp (by rw [hk])⟩
    · rintro ⟨h1, h2⟩
      have ht := (terminatePassE_ok_iff reg).mpr h1
      have hk := (killPassE_ok_iff reg).mpr h2
      rw [terminateAllE, ht, hk]
  · intro e he
    rw [registryAfterTerminateAll, he]

/-- C3 amended, witness: on a registry where all OS calls succeed,
`terminateAll` returns normally with the registry cleared. -/
theorem C3_failure_propagates_witness :
    terminateAllE [("skald", ⟨false, true, false⟩),
      ("writer", ⟨false, false, false⟩)] = Except.ok [] :=
  (C3_failure_propagates
      [("skald", ⟨false, true, false⟩), ("writer", ⟨false, false, false⟩)]).1.mpr
    (by decide)

/-- C4: when the watchdog fires or an external SIGTERM/SIGINT is
delivered during a scenario body, the same handler sequence runs —
`terminateAll()` then exit with status 1 — the whole run ends with a
non-zero exit code, and no (description, success) entry is appended for
the in-flight scenario. -/
theorem C4_abnormal_path (description : String) (timeoutMs : Nat)
    (results : List (String × Bool)) (events : List RunEvent)
    (fromWatchdog : Bool) :
    (runTest description timeoutMs (BodyOutcome.interrupted fromWatchdog)
        results events).results = results
    ∧ (runTest description timeoutMs (BodyOutcome.interrupted fromWatchdog)
        results events).exitCode = some 1
    ∧ sigtermHandlerEvents = [RunEvent.terminateAllCall, RunEvent.exitRun 1]
    ∧ timeoutFire = RunEvent.printLine "Timeout!" :: sigtermHandlerEvents
    ∧ List.IsSuffix sigtermHandlerEvents
        (runTest description timeoutMs (BodyOutcome.interrupted fromWatchdog)
          results events).events := by
  refine ⟨rfl, rfl, rfl, rfl, ?_⟩
  cases fromWatchdog
  · exact ⟨_, rfl⟩
  · refine ⟨(events ++ [RunEvent.clearRegistry] ++ [RunEvent.armWatchdog timeoutMs]
      ++ [RunEvent.runBody]) ++ [RunEvent.printLine "Timeout!"], ?_⟩
    simp [runTest, timeoutFire]

/-- C5: `terminateAll` sends a graceful termination request to every
registered process in registry order, sleeps a 200 ms grace interval,
sends a forced kill to exactly the processes still alive after the
grace interval, and clears the registry; a second call, on the
already-empty registry, raises no error and performs no termination or
kill attempt. -/
theorem C5_terminate_all (reg : List (String × ProcBehavior)) :
    terminatePass reg = reg.map (fun np => TermAction.terminate np.1)
    ∧ killPass reg = (reg.filter (fun np => np.2.aliveAfterGrace)).map
        (fun np => TermAction.kill np.1)
    ∧ terminateAllTrace reg
        = reg.map (fun np => TermAction.terminate np.1)
          ++ TermAction.sleep 200
            :: (reg.filter (fun np => np.2.aliveAfterGrace)).map
                (fun np => TermAction.kill np.1)
          ++ [TermAction.clearRegistry]
    ∧ terminateAllFinal reg = []
    ∧ terminateAllTrace [] = [TermAction.sleep 200, TermAction.clearRegistry]
    ∧ (∀ n, TermAction.terminate n ∉ terminateAllTrace []
        ∧ TermAction.kill n ∉ terminateAllTrace [])
    ∧ terminateAllE [] = Except.ok [] := by
  refine ⟨terminatePass_eq_map reg, killPass_eq_filter_map reg, ?_, rfl, rfl,
    ?_, rfl⟩
  · rw [terminateAllTrace, terminatePass_eq_map, killPass_eq_filter_map]
  · intro n
    constructor <;> simp [terminateAllTrace, terminatePass, killPass]

theorem findSink_append_self (m : List (String × String)) (k p : String)
    (h : findSink m k = none) : findSink (m ++ [(k, p)]) k = some p := by
  induction m with
  | nil => simp [findSink]
  | cons kv rest ih =>
      rw [findSink] at h
      by_cases hk : kv.1 = k
      · rw [if_pos hk] at h; exact absurd h (by simp)
      · rw [if_neg hk] at h
        simpa [findSink, hk] using ih h

theorem osPathJoin_dot (arg0 : String) (h : strContainsChar arg0 '/' = false) :
    osPathJoin "." arg0 = "./" ++ arg0 := by
  obtain ⟨cs⟩ := arg0
  cases cs with
  | nil => rfl
  | cons c rest =>
      have hc : ¬ c = '/' := by
        intro hc
        simp [strContainsChar, hc] at h
      rw [osPathJoin, if_neg (by simpa using hc), if_neg (by simp),
        if_neg (by simp)]
      rfl

theorem dotSlash_append_ne (arg0 : String) : "./" ++ arg0 ≠ arg0 := by
  intro heq
  have hlen : ("./" ++ arg0).data.length = arg0.data.length :=
    congrArg List.length (congrArg String.data heq)
  rw [String.data_append] at hlen
  simp at hlen
  omega

/-- C7: `spawn` rewrites a separator-free `argv[0]` to resolve relative
to the current directory (prefixing `./`, so it is not looked up on the
search path), and redirects both the standard output and the standard
error of the spawned process into the single log sink associated with
the basename of the resolved `argv[0]`. -/
theorem C7_spawn_resolution (arg0 : String) (argRest : List String)
    (st : SpawnState) :
    (strContainsChar arg0 '/' = false →
      (spawn arg0 argRest st).1.launchedArgv = ("./" ++ arg0) :: argRest)
    ∧ (spawn arg0 argRest st).1.stdoutSink
        = osPathBasename ((spawn arg0 argRest st).1.launchedArgv.headD "")
    ∧ (spawn arg0 argRest st).1.stderrToStdout = true
    ∧ ∃ path, findSink (spawn arg0 argRest st).2.outputFiles
        (spawn arg0 argRest st).1.stdoutSink = some path := by
  have hres :
      (spawn arg0 argRest st).1
        = { launchedArgv := (if strContainsChar arg0 '/' then arg0
              else osPathJoin "." arg0) :: argRest
            callerArgv := (if strContainsChar arg0 '/' then arg0
              else osPathJoin "." arg0) :: argRest
            stdoutSink := osPathBasename (if strContainsChar arg0 '/' then arg0
              else osPathJoin "." arg0)
            stderrToStdout := true } := by
    rw [spawn]
    cases hfind : findSink st.outputFiles
        (osPathBasename (if strContainsChar arg0 '/' then arg0
          else osPathJoin "." arg0)) <;>
      simp [hfind]
  refine ⟨?_, ?_, ?_, ?_⟩
  · intro h
    rw [hres]
    simp [h, osPathJoin_dot arg0 h]
  · rw [hres]
    rfl
  · rw [hres]
  · rw [hres]
    rw [spawn]
    cases hfind : findSink st.outputFiles
        (osPathBasename (if strContainsChar arg0 '/' then arg0
          else osPathJoin "." arg0)) with
    | some p => exact ⟨p, by simpa using hfind⟩
    | none =>
        refine ⟨osPathBasename (if strContainsChar arg0 '/' then arg0
          else osPathJoin "." arg0) ++ ".log", ?_⟩
        simpa using findSink_append_self st.outputFiles _ _ hfind

/-- C7 witness: spawning a bare `skald` launches `./skald` with both
streams going to the `skald` sink. -/
theorem C7_spawn_resolution_witness :
    (spawn "skald" ["-u", "unix://skald.sock"] initSpawnState).1.launchedArgv
      = ["./skald", "-u", "unix://skald.sock"]
    ∧ (spawn "skald" ["-u", "unix://skald.sock"]
        initSpawnState).1.stderrToStdout = true := by
  have h := C7_spawn_resolution "skald" ["-u", "unix://skald.sock"]
    initSpawnState
  exact ⟨(h.1 (by decide)).trans (by decide), h.2.2.1⟩

/-- C10: `spawn` mutates the caller's argument list in place — after the
call the caller's list equals the argv actually launched, and when
`argv[0]` had no path separator the list the caller passed in has
observably changed: its head is now the current-directory-relative
form. -/
theorem C10_spawn_mutates_caller (arg0 : String) (argRest : List String)
    (st : SpawnState) :
    (spawn arg0 argRest st).1.callerArgv
        = (spawn arg0 argRest st).1.launchedArgv
    ∧ (strContainsChar arg0 '/' = false →
        (spawn arg0 argRest st).1.callerArgv = ("./" ++ arg0) :: argRest
        ∧ (spawn arg0 argRest st).1.callerArgv ≠ arg0 :: argRest) := by
  have hres :
      (spawn arg0 argRest st).1
        = { launchedArgv := (if strContainsChar arg0 '/' then arg0
              else osPathJoin "." arg0) :: argRest
            callerArgv := (if strContainsChar arg0 '/' then arg0
              else osPathJoin "." arg0) :: argRest
            stdoutSink := osPathBasename (if strContainsChar arg0 '/' then arg0
              else osPathJoin "." arg0)
            stderrToStdout := true } := by
    rw [spawn]
    cases hfind : findSink st.outputFiles
        (osPathBasename (if strContainsChar arg0 '/' then arg0
          else osPathJoin "." arg0)) <;>
      simp [hfind]
  refine ⟨by rw [hres], ?_⟩
  intro h
  have hcaller : (spawn arg0 argRest st).1.callerArgv
      = ("./" ++ arg0) :: argRest := by
    rw [hres]
    simp [h, osPathJoin_dot arg0 h]
  refine ⟨hcaller, ?_⟩
  rw [hcaller]
  intro heq
  injection heq with h1 h2
  exact dotSlash_append_ne arg0 h1

/-- C10 witness: spawning a bare `skald` leaves the caller's list
changed to `["./skald"]`. -/
theorem C10_spawn_mutates_caller_witness :
    (spawn "skald" [] initSpawnState).1.callerArgv = ["./skald"]
    ∧ (spawn "skald" [] initSpawnState).1.callerArgv ≠ ["skald"] := by
  have h := (C10_spawn_mutates_caller "skald" [] initSpawnState).2 (by decide)
  exact ⟨h.1.trans (by decide), h.2⟩

theorem runScenarios_results (scns : List (String × Nat × Bool))
    (results : List (String × Bool)) (events : List RunEvent) :
    (runScenarios scns results events).1
      = results ++ scns.map (fun s => (s.1, s.2.2)) := by
  induction scns generalizing results events with
  | nil => simp [runScenarios]
  | cons s rest ih => simp [runScenarios, runTest, ih]

/-- C8: one `runTest` call performs, in strict order, registry clear,
watchdog arm, body, watchdog cancel, an unconditional `terminateAll`
(whatever boolean the body returned), and the append of
(description, result); across scenarios the results list records
outcomes in execution order, which is the order the final report
consumes. -/
theorem C8_runner_order (description : String) (timeoutMs : Nat)
    (success : Bool) (results : List (String × Bool))
    (events : List RunEvent) (scns : List (String × Nat × Bool)) :
    runTest description timeoutMs (BodyOutcome.completed success)
        results events
      = { results := results ++ [(description, success)]
          events := events ++ [RunEvent.clearRegistry,
            RunEvent.armWatchdog timeoutMs, RunEvent.runBody,
            RunEvent.cancelWatchdog, RunEvent.terminateAllCall,
            RunEvent.recordResult description success]
          exitCode := none }
    ∧ (runScenarios scns [] []).1 = scns.map (fun s => (s.1, s.2.2)) := by
  constructor
  · simp [runTest]
  · simpa using runScenarios_results scns [] []

/-- C9: every scenario body returns `True` unconditionally, whatever the
exit status of the process it waits on, so a run that completes normally
records four successes, has `failCount = 0`, and can never reach the
some-tests-failed summary branch. -/
theorem C9_fail_branch_unreachable (s1 s2 s3 s4 : Int)
    (logs : List (String × List String)) :
    (testSendOneMsg s1).success = true
    ∧ (testSendFiveMsg s2).success = true
    ∧ (testSendOneMsgToGroup s3).success = true
    ∧ (testSendFiveMsgToGroup s4).success = true
    ∧ fullRunResults s1 s2 s3 s4
        = [("Send one message through SKALD", true),
           ("Send five messages through SKALD", true),
           ("Send one message to a multicast group", true),
           ("Send five messages to a multicast group", true)]
    ∧ failCount (fullRunResults s1 s2 s3 s4) = 0
    ∧ ∀ f t, (finalVerdict (fullRunResults s1 s2 s3 s4) logs).1
        ≠ Verdict.failSummary f t := by
  refine ⟨rfl, rfl, rfl, rfl, rfl, rfl, ?_⟩
  intro f t
  have h0 : failCount (fullRunResults s1 s2 s3 s4) = 0 := rfl
  rw [finalVerdict, h0]
  cases hm : memoryLeak logs <;> simp [hm]

theorem findSink_eq_none_iff (m : List (String × String)) (k : String) :
    findSink m k = none ↔ k ∉ m.map Prod.fst := by
  induction m with
  | nil => simp [findSink]
  | cons kv rest ih =>
      by_cases hk : kv.1 = k
      · simp [findSink, hk]
      · have hk2 : ¬ k = kv.1 := fun hh => hk hh.symm
        simp [findSink, hk, hk2, ih]

theorem spawn_state_eq (c : SpawnCall) (st : SpawnState) :
    (spawn c.arg0 c.argRest st).2
      = if findSink st.outputFiles (resolvedBasename c) = none then
          { outputFiles := st.outputFiles
              ++ [(resolvedBasename c, resolvedBasename c ++ ".log")]
            outputPaths := st.outputPaths
              ++ [(resolvedBasename c, resolvedBasename c ++ ".log")]
            fileEvents := st.fileEvents
              ++ [FileEvent.openWrite (resolvedBasename c ++ ".log")] }
        else st := by
  rw [spawn, resolvedBasename]
  cases hfind : findSink st.outputFiles
      (osPathBasename (if strContainsChar c.arg0 '/' then c.arg0
        else osPathJoin "." c.arg0)) with
  | some p => simp [hfind]
  | none => simp [hfind]

theorem spawn_preserves_goodState (c : SpawnCall) (st : SpawnState)
    (hg : goodState st) : goodState (spawn c.arg0 c.argRest st).2 := by
  obtain ⟨he, hn, hp, hq⟩ := hg
  rw [spawn_state_eq]
  by_cases hfind : findSink st.outputFiles (resolvedBasename c) = none
  · rw [if_pos hfind]
    have hnm : resolvedBasename c ∉ st.outputFiles.map Prod.fst :=
      (findSink_eq_none_iff _ _).mp hfind
    refine ⟨?_, ?_, ?_, ?_⟩
    · simp [he]
    · simp [List.nodup_append, hn, hnm]
    · simp [hp]
    · intro kv hkv
      rcases List.mem_append.mp hkv with hmem | hmem
      · exact hq kv hmem
      · rw [List.mem_singleton.mp hmem]
  · rw [if_neg hfind]
    exact ⟨he, hn, hp, hq⟩

theorem runSpawns_goodState (calls : List SpawnCall) (st : SpawnState)
    (hg : goodState st) : goodState (runSpawns calls st) := by
  induction calls generalizing st with
  | nil => exact hg
  | cons c cs ih => exact ih _ (spawn_preserves_goodState c st hg)

theorem spawn_keys_mem (c : SpawnCall) (st : SpawnState) (b : String) :
    b ∈ (spawn c.arg0 c.argRest st).2.outputFiles.map Prod.fst
      ↔ b ∈ st.outputFiles.map Prod.fst ∨ b = resolvedBasename c := by
  rw [spawn_state_eq]
  by_cases hfind : findSink st.outputFiles (resolvedBasename c) = none
  · rw [if_pos hfind]
    simp
  · rw [if_neg hfind]
    have hmem : resolvedBasename c ∈ st.outputFiles.map Prod.fst := by
      by_contra hnm
      exact hfind ((findSink_eq_none_iff _ _).mpr hnm)
    constructor
    · exact Or.inl
    · rintro (hb | rfl)
      · exact hb
      · exact hmem

theorem runSpawns_keys_mem (calls : List SpawnCall) (st : SpawnState)
    (b : String) :
    b ∈ (runSpawns calls st).outputFiles.map Prod.fst
      ↔ b ∈ st.outputFiles.map Prod.fst ∨ b ∈ calls.map resolvedBasename := by
  induction calls generalizing st with
  | nil => simp [runSpawns]
  | cons c cs ih =>
      rw [runSpawns, ih, spawn_keys_mem]
      simp [or_assoc]

theorem append_log_injective :
    Function.Injective (fun s : String => s ++ ".log") := by
  intro a b h
  have hd : a.data ++ ".log".data = b.data ++ ".log".data := by
    simpa [String.data_append] using congrArg String.data h
  have hdd : a.data = b.data := List.append_cancel_right hd
  cases a
  cases b
  exact congrArg String.mk hdd

theorem goodState_fileEvents (st : SpawnState) (hg : goodState st) :
    st.fileEvents = (st.outputFiles.map Prod.fst).map
      (fun k => FileEvent.openWrite (k ++ ".log")) := by
  obtain ⟨he, hn, hp, hq⟩ := hg
  rw [he, List.map_map]
  apply List.map_congr_left
  intro kv hkv
  simp [hq kv hkv]

theorem goodState_closeEvents (st : SpawnState) (hg : goodState st) :
    closeAllEvents st = (st.outputFiles.map Prod.fst).map
      (fun k => FileEvent.close (k ++ ".log")) := by
  obtain ⟨he, hn, hp, hq⟩ := hg
  rw [closeAllEvents, List.map_map]
  apply List.map_congr_left
  intro kv hkv
  simp [hq kv hkv]

theorem goodState_scanEvents (st : SpawnState) (hg : goodState st) :
    scanOpenEvents st = (st.outputFiles.map Prod.fst).map
      (fun k => FileEvent.openRead (k ++ ".log")) := by
  obtain ⟨he, hn, hp, hq⟩ := hg
  rw [scanOpenEvents, hp, List.map_map]
  apply List.map_congr_left
  intro kv hkv
  simp [hq kv hkv]

theorem count_map_logged (keys : List String) (hn : keys.Nodup) (b : String)
    (hb : b ∈ keys) (g : String → FileEvent)
    (hginj : Function.Injective g) : (keys.map g).count (g b) = 1 := by
  rw [List.count_map_of_injective _ g hginj]
  exact List.count_eq_one_of_mem hn hb

theorem count_map_ne (keys : List String) (g : String → FileEvent)
    (e : FileEvent) (h : ∀ k, ¬ g k = e) : (keys.map g).count e = 0 := by
  rw [List.count_eq_zero]
  intro hmem
  obtain ⟨k, _, hk⟩ := List.mem_map.mp hmem
  exact h k hk

/-- C6: for every basename spawned during the run, the run keeps exactly
one log sink: over the whole file-event trace of the run its backing
file `basename.log` is opened in write/truncate mode exactly once (on
the first spawn; later spawns of the same basename reuse the open sink),
closed exactly once at run end, reopened read-only exactly once by the
leak scan, and the trace splits into the truncating opens, then all the
closes, then all the leak-scan reads — so each sink is closed before the
scan reads it.  A sink exists for a basename exactly when some spawn of
the run resolved to that basename. -/
theorem C6_one_sink_per_basename (calls : List SpawnCall) (b : String)
    (hb : b ∈ (runSpawns calls initSpawnState).outputFiles.map Prod.fst) :
    (fullRunTrace calls).count (FileEvent.openWrite (b ++ ".log")) = 1
    ∧ (fullRunTrace calls).count (FileEvent.close (b ++ ".log")) = 1
    ∧ (fullRunTrace calls).count (FileEvent.openRead (b ++ ".log")) = 1
    ∧ (∀ b2, b2 ∈ (runSpawns calls initSpawnState).outputFiles.map Prod.fst
        ↔ b2 ∈ calls.map resolvedBasename)
    ∧ (∃ w cl rd, fullRunTrace calls = w ++ cl ++ rd
        ∧ (∀ e ∈ w, ∃ p, e = FileEvent.openWrite p)
        ∧ (∀ e ∈ cl, ∃ p, e = FileEvent.close p)
        ∧ (∀ e ∈ rd, ∃ p, e = FileEvent.openRead p)) := by
  have hginit : goodState initSpawnState :=
    ⟨rfl, List.nodup_nil, rfl, by simp [initSpawnState]⟩
  have hg := runSpawns_goodState calls initSpawnState hginit
  have hn : ((runSpawns calls initSpawnState).outputFiles.map Prod.fst).Nodup :=
    hg.2.1
  have hw := goodState_fileEvents _ hg
  have hc := goodState_closeEvents _ hg
  have hr := goodState_scanEvents _ hg
  have htrace : fullRunTrace calls
      = (runSpawns calls initSpawnState).fileEvents
        ++ closeAllEvents (runSpawns calls initSpawnState)
        ++ scanOpenEvents (runSpawns calls initSpawnState) := rfl
  have hwinj : Function.Injective
      (fun k : String => FileEvent.openWrite (k ++ ".log")) := by
    intro x y hxy
    simp only [FileEvent.openWrite.injEq] at hxy
    exact append_log_injective hxy
  have hcinj : Function.Injective
      (fun k : String => FileEvent.close (k ++ ".log")) := by
    intro x y hxy
    simp only [FileEvent.close.injEq] at hxy
    exact append_log_injective hxy
  have hrinj : Function.Injective
      (fun k : String => FileEvent.openRead (k ++ ".log")) := by
    intro x y hxy
    simp only [FileEvent.openRead.injEq] at hxy
    exact append_log_injective hxy
  refine ⟨?_, ?_, ?_, ?_, ?_⟩
  · rw [htrace, List.count_append, List.count_append, hw, hc, hr]
    rw [count_map_logged _ hn b hb _ hwinj]
    rw [count_map_ne _ _ _ (fun k => by simp)]
    rw [count_map_ne _ _ _ (fun k => by simp)]
  · rw [htrace, List.count_append, List.count_append, hw, hc, hr]
    rw [count_map_logged _ hn b hb _ hcinj]
    rw [count_map_ne _ _ _ (fun k => by simp)]
    rw [count_map_ne _ _ _ (fun k => by simp)]
  · rw [htrace, List.count_append, List.count_append, hw, hc, hr]
    rw [count_map_logged _ hn b hb _ hrinj]
    rw [count_map_ne _ _ _ (fun k => by simp)]
    rw [count_map_ne _ _ _ (fun k => by simp)]
  · intro b2
    rw [runSpawns_keys_mem]
    simp [initSpawnState]
  · refine ⟨(runSpawns calls initSpawnState).fileEvents,
      closeAllEvents (runSpawns calls initSpawnState),
      scanOpenEvents (runSpawns calls initSpawnState), htrace, ?_, ?_, ?_⟩
    · intro e hev
      rw [hw] at hev
      obtain ⟨k, _, hk⟩ := List.mem_map.mp hev
      exact ⟨k ++ ".log", hk.symm⟩
    · intro e hev
      rw [hc] at hev
      obtain ⟨k, _, hk⟩ := List.mem_map.mp hev
      exact ⟨k ++ ".log", hk.symm⟩
    · intro e hev
      rw [hr] at hev
      obtain ⟨k, _, hk⟩ := List.mem_map.mp hev
      exact ⟨k ++ ".log", hk.symm⟩

/-- C6 witness: a run that spawns `skald` twice still opens, closes and
scans `skald.log` exactly once each. -/
theorem C6_one_sink_per_basename_witness :
    (fullRunTrace [⟨"skald", ["-u"]⟩, ⟨"skald", ["-u"]⟩]).count
      (FileEvent.openWrite ("skald" ++ ".log")) = 1 :=
  (C6_one_sink_per_basename [⟨"skald", ["-u"]⟩, ⟨"skald", ["-u"]⟩] "skald"
    (by decide)).1

end Skal
